import Mathlib

/-!
Shallow embedding of the Stock-Analyzer repository (src/main.py) and proofs
about it.

Modelling choices:
* Python strings are `List Char` (`PyStr`); a Lean string literal `s` is
  injected with `str s := s.data`.
* A parsed JSON object (such as a Finnhub quote) is an association list
  `Dict := List (PyStr × PyStr)`; `item["k"]` is `List.lookup`, and a missing
  key raises `PyError.keyError`.
* Every external effect is an oracle parameter: an HTTP request's outcome is
  an `HttpOutcome` value (success body, non-2xx status, transport failure, or
  JSON-parse failure), and an OpenAI ChatCompletion call's outcome is an
  `AIOutcome` value (the completion text, or any raised exception).
* Python exceptions are the `Except PyError` monad: a `.error` value is an
  exception propagating out of the modelled code.
* Time is `Int` (seconds); the `time.time()` readings taken inside one loop
  iteration are inputs of the tick (`TickInput`).
* One iteration of `main`'s `while True` loop is the function `tick`, acting
  on the loop's mutable state `LoopState` (`analyzed_stocks`,
  `last_comparison_time`).
-/

/-- Python strings, modelled as their character sequences. -/
abbrev PyStr := List Char

/-- Injection of a Lean string literal into the `PyStr` model. -/
def str (s : String) : PyStr := s.data

/-- A parsed JSON object: keys to (rendered) values, as Python dict access. -/
abbrev Dict := List (PyStr × PyStr)

deriving instance DecidableEq for Except

/-- Python exceptions that the modelled code can raise. -/
inductive PyError where
  /-- requests.HTTPError, raised by `resp.raise_for_status()` on non-2xx. -/
  | httpError : PyError
  /-- a requests transport exception that is not HTTPError
      (e.g. requests.ConnectionError raised by `requests.get`). -/
  | connectionError : PyError
  /-- a JSON decode failure raised by `resp.json()`. -/
  | jsonError : PyError
  /-- KeyError from indexing a dict with a missing key. -/
  | keyError (k : PyStr) : PyError
  /-- IndexError from `random.choice` on an empty sequence. -/
  | indexError : PyError
deriving DecidableEq

/-- Outcome of one HTTP GET followed by `raise_for_status()` and `.json()`:
the oracle value standing for the network. -/
inductive HttpOutcome (α : Type) where
  /-- 2xx status and a parseable body. -/
  | success (body : α) : HttpOutcome α
  /-- non-2xx status: `raise_for_status()` raises requests.HTTPError. -/
  | httpError : HttpOutcome α
  /-- transport failure in `requests.get`, not an HTTPError. -/
  | connectionError : HttpOutcome α
  /-- `resp.json()` raises a parse error. -/
  | jsonError : HttpOutcome α
deriving DecidableEq

/-- Outcome of one `openai.ChatCompletion.create` call together with the
response indexing that follows it inside the `try` block. -/
inductive AIOutcome where
  /-- the call returned and `response['choices'][0]['message']['content']`
      yielded this text. -/
  | success (text : PyStr) : AIOutcome
  /-- some exception was raised inside the `try` block. -/
  | failure : AIOutcome
deriving DecidableEq

/-- Python dict indexing `d[k]`: the value, or a raised KeyError. -/
def dictGet (d : Dict) (k : PyStr) : Except PyError PyStr :=
  match List.lookup k d with
  | some v => .ok v
  | none => .error (.keyError k)

/-- Python `str.strip()` whitespace predicate (the common whitespace). -/
def pyIsSpace (c : Char) : Bool :=
  c = ' ' || c = '\t' || c = '\n' || c = '\r'

/-- Python `text.strip()`: drop leading and trailing whitespace. -/
def pyStrip (text : PyStr) : PyStr :=
  ((text.dropWhile pyIsSpace).reverse.dropWhile pyIsSpace).reverse

/-- Embeds `get_all_symbols` (src/main.py lines 24-34): fetch the symbol
list, `raise_for_status`, parse JSON, and keep `item["symbol"]` for every
item that has the key. -/
def get_all_symbols (resp : HttpOutcome (List Dict)) :
    Except PyError (List PyStr) :=
  match resp with
  | .httpError => .error .httpError
  | .connectionError => .error .connectionError
  | .jsonError => .error .jsonError
  | .success data => .ok (data.filterMap (fun item => List.lookup (str "symbol") item))

/-- Embeds `get_quote` (src/main.py lines 39-47): fetch one quote,
`raise_for_status`, and return the parsed JSON object. -/
def get_quote (resp : HttpOutcome Dict) : Except PyError Dict :=
  match resp with
  | .httpError => .error .httpError
  | .connectionError => .error .connectionError
  | .jsonError => .error .jsonError
  | .success body => .ok body

/-- Embeds `truncate_text` (src/main.py lines 52-56). -/
def truncate_text (text : PyStr) (max_length : Nat) : PyStr :=
  if text.length ≤ max_length then text
  else text.take max_length ++ str "..."

/-- Embeds the prompt construction of `analyze_stock_with_openai`
(src/main.py lines 66-81): an f-string indexing the quote for the six keys,
evaluated before the `try` block, so a missing key raises KeyError here. -/
def analysisPrompt (symbol : PyStr) (quote : Dict) : Except PyError PyStr := do
  let c ← dictGet quote (str "c")
  let h ← dictGet quote (str "h")
  let l ← dictGet quote (str "l")
  let o ← dictGet quote (str "o")
  let pc ← dictGet quote (str "pc")
  let t ← dictGet quote (str "t")
  .ok (str "\n    You are an advanced financial AI. Analyze the following stock in depth:\n    Symbol: "
    ++ symbol ++ str "\n    Current Price (c): " ++ c
    ++ str "\n    High (h): " ++ h
    ++ str "\n    Low (l): " ++ l
    ++ str "\n    Open (o): " ++ o
    ++ str "\n    Previous Close (pc): " ++ pc
    ++ str "\n    Timestamp (t): " ++ t
    ++ str "\n\n    Provide a succinct yet thorough analysis describing:\n    - Recent performance\n    - Notable price changes\n    - Short-term prediction\n    - Suggested action (buy, hold, or sell), with reasoning\n    ")

/-- Embeds `analyze_stock_with_openai` (src/main.py lines 61-97): build the
prompt (outside the `try`), call OpenAI inside `try`, return the stripped
completion on success and the sentinel text on any caught exception. -/
def analyze_stock_with_openai (symbol : PyStr) (quote : Dict)
    (ai : AIOutcome) : Except PyError PyStr := do
  let _prompt ← analysisPrompt symbol quote
  match ai with
  | .success text => .ok (pyStrip text)
  | .failure => .ok (str "OpenAI call failed")

/-- One buffered record, as appended in src/main.py lines 170-175. -/
structure AnalyzedEntry where
  symbol : PyStr
  quote : Dict
  analysis : PyStr
  timestamp : Int
deriving DecidableEq

/-- Embeds one iteration of the `for item in analyzed_stocks` loop body of
`compare_stocks_with_openai` (src/main.py lines 110-115): the f-string line
appended to `prompt_list` for one entry. -/
def entryLine (item : AnalyzedEntry) : Except PyError PyStr := do
  let c ← dictGet item.quote (str "c")
  .ok (str "Symbol: " ++ item.symbol ++ str "\nPrice: " ++ c
    ++ str "\nAI Analysis: " ++ truncate_text item.analysis 200 ++ str "\n")

/-- One step of the `prompt_list` accumulation loop: append this item's line
(or propagate an exception already raised, or raised by this item). -/
def promptListStep (acc : Except PyError (List PyStr)) (item : AnalyzedEntry) :
    Except PyError (List PyStr) := do
  let lines ← acc
  let line ← entryLine item
  .ok (lines ++ [line])

/-- Embeds the `prompt_list` accumulation loop of
`compare_stocks_with_openai` (src/main.py lines 109-115) as a left fold. -/
def buildPromptList (entries : List AnalyzedEntry) :
    Except PyError (List PyStr) :=
  entries.foldl promptListStep (.ok [])

/-- Embeds `summary_of_stocks = "\n".join(prompt_list)`
(src/main.py line 117). -/
def summaryOfStocks (entries : List AnalyzedEntry) : Except PyError PyStr := do
  let prompt_list ← buildPromptList entries
  .ok (List.intercalate (str "\n") prompt_list)

/-- Embeds `compare_stocks_with_openai` (src/main.py lines 102-141): build
the comparison prompt from the buffered entries, call OpenAI inside `try`,
return the stripped completion on success and the sentinel text on any
caught exception. -/
def compare_stocks_with_openai (analyzed_stocks : List AnalyzedEntry)
    (ai : AIOutcome) : Except PyError PyStr := do
  let _summary ← summaryOfStocks analyzed_stocks
  match ai with
  | .success text => .ok (pyStrip text)
  | .failure => .ok (str "OpenAI summary call failed")

/-- Embeds `random.choice(all_symbols)` (src/main.py line 159): the random
draw is an oracle index; on a non-empty sequence the result is the element
at that index reduced modulo the length, on an empty sequence `none`
(random.choice raises IndexError). -/
def randomChoice (l : List PyStr) (i : Nat) : Option PyStr :=
  l.get? (i % l.length)

/-- Mutable state of `main`'s loop (src/main.py lines 151-152). -/
structure LoopState where
  analyzed_stocks : List AnalyzedEntry
  last_comparison_time : Int
deriving DecidableEq

/-- `comparison_interval = 60` (src/main.py line 153). -/
def comparison_interval : Int := 60

/-- Oracle inputs consumed by one iteration of the loop. -/
structure TickInput where
  /-- the random draw behind `random.choice`. -/
  choiceIdx : Nat
  /-- outcome of the `get_quote` HTTP request. -/
  quoteResp : HttpOutcome Dict
  /-- outcome of the per-stock OpenAI call. -/
  aiAnalyze : AIOutcome
  /-- outcome of the comparison OpenAI call (used only on a flush). -/
  aiCompare : AIOutcome
  /-- `time.time()` taken for the entry's timestamp (line 174). -/
  tEntry : Int
  /-- `now = time.time()` taken for the flush check (line 177). -/
  tNow : Int
deriving DecidableEq

/-- Observable outcome of one loop iteration that returned to the top. -/
structure TickResult where
  /-- the loop state at the end of the iteration. -/
  state : LoopState
  /-- whether the flush branch (lines 179-186) ran. -/
  flushed : Bool
  /-- the entry list handed to `compare_stocks_with_openai`, when flushed. -/
  flushEntries : Option (List AnalyzedEntry)
  /-- the comparison result `best_pick`, when flushed. -/
  flushResult : Option PyStr
  /-- whether the `time.sleep(1)` + `continue` branch (lines 164-166) ran. -/
  sleptEarly : Bool
deriving DecidableEq

/-- Embeds one iteration of `main`'s `while True` loop
(src/main.py lines 155-189): choose a symbol, fetch its quote (catching only
requests.HTTPError with sleep-and-continue), analyze, append, and run the
interval flush check. A `.error` value is an exception propagating out of
the loop. -/
def tick (symbols : List PyStr) (interval : Int) (st : LoopState)
    (inp : TickInput) : Except PyError TickResult :=
  match randomChoice symbols inp.choiceIdx with
  | none => .error .indexError
  | some symbol =>
    match get_quote inp.quoteResp with
    | .error .httpError =>
      -- `except requests.HTTPError`: report, sleep 1, continue
      .ok { state := st, flushed := false, flushEntries := none,
            flushResult := none, sleptEarly := true }
    | .error e => .error e
    | .ok quote_data =>
      match analyze_stock_with_openai symbol quote_data inp.aiAnalyze with
      | .error e => .error e
      | .ok ai_analysis =>
        let buf := st.analyzed_stocks ++
          [{ symbol := symbol, quote := quote_data, analysis := ai_analysis,
             timestamp := inp.tEntry }]
        if inp.tNow - st.last_comparison_time ≥ interval then
          match compare_stocks_with_openai buf inp.aiCompare with
          | .error e => .error e
          | .ok best_pick =>
            .ok { state := { analyzed_stocks := [],
                             last_comparison_time := inp.tNow },
                  flushed := true, flushEntries := some buf,
                  flushResult := some best_pick, sleptEarly := false }
        else
          .ok { state := { analyzed_stocks := buf,
                           last_comparison_time := st.last_comparison_time },
                flushed := false, flushEntries := none,
                flushResult := none, sleptEarly := false }

/-- Boolean check that a dict has a key. -/
def hasKey (d : Dict) (k : PyStr) : Bool :=
  (List.lookup k d).isSome

/-- Boolean check that a quote carries all six keys the analysis prompt
indexes. -/
def hasAllQuoteKeys (d : Dict) : Bool :=
  hasKey d (str "c") && hasKey d (str "h") && hasKey d (str "l") &&
  hasKey d (str "o") && hasKey d (str "pc") && hasKey d (str "t")

/-! ## Helper lemmas -/

/-- Text of the line `entryLine` produces for an item whose quote maps the
key "c" to `c`. -/
def entryLineText (item : AnalyzedEntry) (c : PyStr) : PyStr :=
  str "Symbol: " ++ item.symbol ++ str "\nPrice: " ++ c
    ++ str "\nAI Analysis: " ++ truncate_text item.analysis 200 ++ str "\n"

theorem randomChoice_mem (symbols : List PyStr) (i : Nat) (hs : symbols ≠ []) :
    ∃ s, randomChoice symbols i = some s ∧ s ∈ symbols := by
  have hlen : 0 < symbols.length := List.length_pos.mpr hs
  have hlt : i % symbols.length < symbols.length := Nat.mod_lt _ hlen
  refine ⟨symbols.get ⟨i % symbols.length, hlt⟩, ?_, List.get_mem _ _ _⟩
  simp [randomChoice, List.get?_eq_get hlt]

theorem analyze_ok (symbol : PyStr) (quote : Dict) (ai : AIOutcome)
    (hq : hasAllQuoteKeys quote = true) :
    analyze_stock_with_openai symbol quote ai =
      .ok (match ai with
           | .success text => pyStrip text
           | .failure => str "OpenAI call failed") := by
  simp only [hasAllQuoteKeys, hasKey, Bool.and_eq_true,
    Option.isSome_iff_exists] at hq
  obtain ⟨⟨⟨⟨⟨⟨c, hc⟩, h, hh⟩, l, hl⟩, o, ho⟩, pc, hpc⟩, t, ht⟩ := hq
  cases ai <;>
    simp [analyze_stock_with_openai, analysisPrompt, dictGet,
      hc, hh, hl, ho, hpc, ht, bind, Except.bind]

theorem analyze_missingKey (quote : Dict) (hq : hasAllQuoteKeys quote = false) :
    ∃ k, ∀ symbol ai,
      analyze_stock_with_openai symbol quote ai = .error (.keyError k) := by
  cases hc : List.lookup (str "c") quote with
  | none =>
    exact ⟨str "c", fun symbol ai => by
      simp [analyze_stock_with_openai, analysisPrompt, dictGet, hc,
        bind, Except.bind]⟩
  | some c =>
  cases hh : List.lookup (str "h") quote with
  | none =>
    exact ⟨str "h", fun symbol ai => by
      simp [analyze_stock_with_openai, analysisPrompt, dictGet, hc, hh,
        bind, Except.bind]⟩
  | some h =>
  cases hl : List.lookup (str "l") quote with
  | none =>
    exact ⟨str "l", fun symbol ai => by
      simp [analyze_stock_with_openai, analysisPrompt, dictGet, hc, hh, hl,
        bind, Except.bind]⟩
  | some l =>
  cases ho : List.lookup (str "o") quote with
  | none =>
    exact ⟨str "o", fun symbol ai => by
      simp [analyze_stock_with_openai, analysisPrompt, dictGet, hc, hh, hl, ho,
        bind, Except.bind]⟩
  | some o =>
  cases hpc : List.lookup (str "pc") quote with
  | none =>
    exact ⟨str "pc", fun symbol ai => by
      simp [analyze_stock_with_openai, analysisPrompt, dictGet, hc, hh, hl, ho,
        hpc, bind, Except.bind]⟩
  | some pc =>
  cases ht : List.lookup (str "t") quote with
  | none =>
    exact ⟨str "t", fun symbol ai => by
      simp [analyze_stock_with_openai, analysisPrompt, dictGet, hc, hh, hl, ho,
        hpc, ht, bind, Except.bind]⟩
  | some t =>
    exfalso
    simp [hasAllQuoteKeys, hasKey, hc, hh, hl, ho, hpc, ht] at hq

theorem buildPromptList_aux (entries : List AnalyzedEntry) (acc : List PyStr)
    (h : ∀ it ∈ entries, hasKey it.quote (str "c") = true) :
    ∃ L, entries.foldl promptListStep (.ok acc) = .ok (acc ++ L) ∧
      List.Forall₂
        (fun it line => ∃ c, List.lookup (str "c") it.quote = some c ∧
          line = entryLineText it c)
        entries L := by
  induction entries generalizing acc with
  | nil => exact ⟨[], by simp, List.Forall₂.nil⟩
  | cons it es ih =>
    have hit : hasKey it.quote (str "c") = true := h it (by simp)
    simp only [hasKey, Option.isSome_iff_exists] at hit
    obtain ⟨c, hc⟩ := hit
    have hstep : promptListStep (.ok acc) it = .ok (acc ++ [entryLineText it c]) := by
      simp [promptListStep, entryLine, dictGet, hc, entryLineText,
        bind, Except.bind]
    obtain ⟨L, hL, hall⟩ := ih (acc ++ [entryLineText it c])
      (fun x hx => h x (by simp [hx]))
    refine ⟨entryLineText it c :: L, ?_, List.Forall₂.cons ⟨c, hc, rfl⟩ hall⟩
    simp [hstep, hL]

theorem buildPromptList_ok (entries : List AnalyzedEntry)
    (h : ∀ it ∈ entries, hasKey it.quote (str "c") = true) :
    ∃ L, buildPromptList entries = .ok L ∧
      List.Forall₂
        (fun it line => ∃ c, List.lookup (str "c") it.quote = some c ∧
          line = entryLineText it c)
        entries L := by
  obtain ⟨L, hL, hall⟩ := buildPromptList_aux entries [] h
  exact ⟨L, by simpa [buildPromptList] using hL, hall⟩

theorem compare_ok (entries : List AnalyzedEntry) (ai : AIOutcome)
    (h : ∀ it ∈ entries, hasKey it.quote (str "c") = true) :
    compare_stocks_with_openai entries ai =
      .ok (match ai with
           | .success text => pyStrip text
           | .failure => str "OpenAI summary call failed") := by
  obtain ⟨L, hL, -⟩ := buildPromptList_ok entries h
  cases ai <;>
    simp [compare_stocks_with_openai, summaryOfStocks, hL, bind, Except.bind]

theorem tick_eq_of_success (symbols : List PyStr) (interval : Int)
    (st : LoopState) (inp : TickInput) (sym : PyStr) (q : Dict) (a : PyStr)
    (hs : randomChoice symbols inp.choiceIdx = some sym)
    (hf : inp.quoteResp = .success q)
    (ha : analyze_stock_with_openai sym q inp.aiAnalyze = .ok a) :
    tick symbols interval st inp =
      (let buf := st.analyzed_stocks ++
         [{ symbol := sym, quote := q, analysis := a,
            timestamp := inp.tEntry }]
       if inp.tNow - st.last_comparison_time ≥ interval then
         match compare_stocks_with_openai buf inp.aiCompare with
         | .error e => .error e
         | .ok best_pick =>
           .ok { state := { analyzed_stocks := [],
                            last_comparison_time := inp.tNow },
                 flushed := true, flushEntries := some buf,
                 flushResult := some best_pick, sleptEarly := false }
       else
         .ok { state := { analyzed_stocks := buf,
                          last_comparison_time := st.last_comparison_time },
               flushed := false, flushEntries := none,
               flushResult := none, sleptEarly := false }) := by
  simp [tick, hs, hf, get_quote, ha]

/-! ## Concrete data for counterexamples and witnesses -/

/-- Sample quote carrying all six keys the analysis prompt indexes. -/
def qGood : Dict :=
  [(str "c", str "101"), (str "h", str "110"), (str "l", str "90"),
   (str "o", str "100"), (str "pc", str "99"), (str "t", str "1700000000")]

/-- Sample quote missing the key "t". -/
def qNoT : Dict :=
  [(str "c", str "101"), (str "h", str "110"), (str "l", str "90"),
   (str "o", str "100"), (str "pc", str "99")]

/-- Sample one-symbol universe. -/
def symsA : List PyStr := [str "AAPL"]

/-- Loop state at startup time 0 with an empty buffer. -/
def st0 : LoopState := { analyzed_stocks := [], last_comparison_time := 0 }

/-- Tick inputs with everything succeeding, read at the exact interval
boundary (elapsed 60 with interval 60). -/
def inpBoundary : TickInput :=
  { choiceIdx := 0, quoteResp := .success qGood,
    aiAnalyze := .success (str "looks fine"),
    aiCompare := .success (str "AAPL"), tEntry := 60, tNow := 60 }

/-- Entry that `inpBoundary` appends from `qGood`. -/
def entryBoundary : AnalyzedEntry :=
  { symbol := str "AAPL", quote := qGood,
    analysis := str "looks fine", timestamp := 60 }

/-! ## Claim C1 -/

/-- C1, counterexample part: with an empty buffer, at exactly the interval
boundary (elapsed 60, interval 60), the flush does fire — but the tick's own
entry was appended before the flush check, so the comparison call receives
the one-entry list `[entryBoundary]` and its summary is not the empty
prompt: the claim's "empty buffer at the boundary still produces a flush
with an empty comparison prompt" is false on the code. -/
theorem tick_boundary_emptyBuffer_flushes_nonempty_prompt :
    tick symsA 60 st0 inpBoundary =
      .ok { state := { analyzed_stocks := [], last_comparison_time := 60 },
            flushed := true, flushEntries := some [entryBoundary],
            flushResult := some (str "AAPL"), sleptEarly := false } ∧
    st0.analyzed_stocks = [] ∧
    [entryBoundary].length = 1 ∧
    summaryOfStocks [entryBoundary] ≠ .ok (str "") := by
  decide

/-- C1, amended: on a tick whose quote fetch succeeds, the flush runs if and
only if `now - last_comparison_time ≥ interval` (boundary inclusive),
irrespective of the buffer's prior contents; but every flush's comparison
call receives the prior buffer extended with the current tick's entry, so an
empty prior buffer yields a one-entry comparison prompt, never an empty
one. -/
theorem tick_flush_iff_interval_elapsed (symbols : List PyStr)
    (interval : Int) (st : LoopState) (inp : TickInput) (q : Dict)
    (hs : symbols ≠ [])
    (hf : inp.quoteResp = .success q)
    (hq : hasAllQuoteKeys q = true)
    (hbuf : ∀ it ∈ st.analyzed_stocks, hasKey it.quote (str "c") = true) :
    ∃ r, tick symbols interval st inp = .ok r ∧
      (r.flushed = true ↔ inp.tNow - st.last_comparison_time ≥ interval) ∧
      (r.flushed = true →
        ∃ e, r.flushEntries = some (st.analyzed_stocks ++ [e]) ∧
          (st.analyzed_stocks ++ [e]).length = st.analyzed_stocks.length + 1) := by
  obtain ⟨sym, hsym, -⟩ := randomChoice_mem symbols inp.choiceIdx hs
  have ha := analyze_ok sym q inp.aiAnalyze hq
  set a := (match inp.aiAnalyze with
    | AIOutcome.success text => pyStrip text
    | AIOutcome.failure => str "OpenAI call failed") with hadef
  rw [tick_eq_of_success symbols interval st inp sym q a hsym hf ha]
  set e : AnalyzedEntry :=
    { symbol := sym, quote := q, analysis := a, timestamp := inp.tEntry }
  by_cases hcond : inp.tNow - st.last_comparison_time ≥ interval
  · have hcall := compare_ok (st.analyzed_stocks ++ [e]) inp.aiCompare
      (by
        intro it hit
        rcases List.mem_append.mp hit with h1 | h2
        · exact hbuf it h1
        · simp only [List.mem_singleton] at h2
          subst h2
          simp [hasKey, hasAllQuoteKeys, Bool.and_eq_true] at hq ⊢
          exact hq.1.1.1.1.1)
    simp only [hcond, if_pos, if_true]
    rw [hcall]
    refine ⟨_, rfl, by simp [hcond], fun _ => ⟨e, rfl, by simp⟩⟩
  · simp only [if_neg hcond]
    exact ⟨_, rfl, by simpa using hcond, by simp⟩

/-- C1, witness: the amended theorem applied at the concrete boundary
input. -/
theorem tick_flush_iff_interval_elapsed_witness :
    ∃ r, tick symsA 60 st0 inpBoundary = .ok r ∧
      (r.flushed = true ↔ inpBoundary.tNow - st0.last_comparison_time ≥ 60) ∧
      (r.flushed = true →
        ∃ e, r.flushEntries = some (st0.analyzed_stocks ++ [e]) ∧
          (st0.analyzed_stocks ++ [e]).length = st0.analyzed_stocks.length + 1) :=
  tick_flush_iff_interval_elapsed symsA 60 st0 inpBoundary qGood
    (by decide) (by decide) (by decide) (by simp [st0])

/-! ## Claim C2 -/

/-- Tick inputs with everything succeeding, read well before the boundary
(elapsed 10 with interval 60). -/
def inpEarly : TickInput :=
  { choiceIdx := 0, quoteResp := .success qGood,
    aiAnalyze := .success (str "looks fine"),
    aiCompare := .success (str "AAPL"), tEntry := 10, tNow := 10 }

/-- C2: on a tick whose quote fetch succeeds, immediately after a flush the
buffer has length 0, and on a non-flushing tick the buffer is exactly the
old buffer with one entry appended at the end (so its length grows by
exactly 1 and no prior entry is removed or changed). -/
theorem tick_buffer_invariant (symbols : List PyStr) (interval : Int)
    (st : LoopState) (inp : TickInput) (q : Dict)
    (hs : symbols ≠ [])
    (hf : inp.quoteResp = .success q)
    (hq : hasAllQuoteKeys q = true)
    (hbuf : ∀ it ∈ st.analyzed_stocks, hasKey it.quote (str "c") = true) :
    ∃ r, tick symbols interval st inp = .ok r ∧
      (r.flushed = true → r.state.analyzed_stocks.length = 0) ∧
      (r.flushed = false →
        ∃ e, r.state.analyzed_stocks = st.analyzed_stocks ++ [e] ∧
          r.state.analyzed_stocks.length = st.analyzed_stocks.length + 1) := by
  obtain ⟨sym, hsym, -⟩ := randomChoice_mem symbols inp.choiceIdx hs
  have ha := analyze_ok sym q inp.aiAnalyze hq
  set a := (match inp.aiAnalyze with
    | AIOutcome.success text => pyStrip text
    | AIOutcome.failure => str "OpenAI call failed") with hadef
  rw [tick_eq_of_success symbols interval st inp sym q a hsym hf ha]
  set e : AnalyzedEntry :=
    { symbol := sym, quote := q, analysis := a, timestamp := inp.tEntry }
  by_cases hcond : inp.tNow - st.last_comparison_time ≥ interval
  · have hcall := compare_ok (st.analyzed_stocks ++ [e]) inp.aiCompare
      (by
        intro it hit
        rcases List.mem_append.mp hit with h1 | h2
        · exact hbuf it h1
        · simp only [List.mem_singleton] at h2
          subst h2
          simp [hasKey, hasAllQuoteKeys, Bool.and_eq_true] at hq ⊢
          exact hq.1.1.1.1.1)
    simp only [hcond, if_pos, if_true]
    rw [hcall]
    exact ⟨_, rfl, fun _ => rfl, by simp⟩
  · simp only [if_neg hcond]
    exact ⟨_, rfl, by simp, fun _ => ⟨e, rfl, by simp⟩⟩

/-- C2, witness: the invariant applied at a concrete non-flushing tick. -/
theorem tick_buffer_invariant_witness :
    ∃ r, tick symsA 60 st0 inpEarly = .ok r ∧
      (r.flushed = true → r.state.analyzed_stocks.length = 0) ∧
      (r.flushed = false →
        ∃ e, r.state.analyzed_stocks = st0.analyzed_stocks ++ [e] ∧
          r.state.analyzed_stocks.length = st0.analyzed_stocks.length + 1) :=
  tick_buffer_invariant symsA 60 st0 inpEarly qGood
    (by decide) (by decide) (by decide) (by simp [st0])

/-! ## Claim C3 -/

/-- Tick inputs whose quote fetch returns a non-2xx status, so
`raise_for_status` raises requests.HTTPError. -/
def inpHttpErr : TickInput :=
  { choiceIdx := 0, quoteResp := .httpError,
    aiAnalyze := .failure, aiCompare := .failure, tEntry := 100, tNow := 100 }

/-- C3: when the quote fetch raises requests.HTTPError, the tick leaves the
whole loop state unchanged (no entry appended, `last_comparison_time` not
advanced, no flush check), takes the `time.sleep(1)`-and-`continue` branch
(`sleptEarly`), and returns normally to the next tick instead of
propagating an exception. -/
theorem tick_httpError_skips (symbols : List PyStr) (interval : Int)
    (st : LoopState) (inp : TickInput)
    (hs : symbols ≠ [])
    (hf : inp.quoteResp = .httpError) :
    tick symbols interval st inp =
      .ok { state := st, flushed := false, flushEntries := none,
            flushResult := none, sleptEarly := true } := by
  obtain ⟨sym, hsym, -⟩ := randomChoice_mem symbols inp.choiceIdx hs
  simp [tick, hsym, hf, get_quote]

/-- C3, witness: the skip behavior at a concrete failing tick. -/
theorem tick_httpError_skips_witness :
    tick symsA 60 st0 inpHttpErr =
      .ok { state := st0, flushed := false, flushEntries := none,
            flushResult := none, sleptEarly := true } :=
  tick_httpError_skips symsA 60 st0 inpHttpErr (by decide) (by decide)

/-! ## Claim C4 -/

/-- Tick inputs whose per-stock OpenAI call raises, read before the
boundary. -/
def inpAnalyzeFail : TickInput :=
  { choiceIdx := 0, quoteResp := .success qGood,
    aiAnalyze := .failure, aiCompare := .failure, tEntry := 10, tNow := 10 }

/-- C4, counterexample part: when the provider call raises, the analyzer
returns the sentinel text "OpenAI call failed" (src/main.py line 97), which
is not the claim's "analysis unavailable". -/
theorem analyze_failure_sentinel_text :
    analyze_stock_with_openai (str "AAPL") qGood .failure =
      .ok (str "OpenAI call failed") ∧
    str "OpenAI call failed" ≠ str "analysis unavailable" := by
  decide

/-- C4, amended: if the provider call in the single-stock analyzer raises
any error, the analyzer catches it and returns the sentinel failure string
"OpenAI call failed" instead of propagating, and the tick still appends a
buffer entry carrying that sentinel as its analysis text (in the flushed
case the entry is in the list handed to the comparison call); the loop does
not halt. -/
theorem analyze_failure_returns_sentinel_and_still_appends
    (symbols : List PyStr) (interval : Int) (st : LoopState)
    (inp : TickInput) (q : Dict)
    (hs : symbols ≠ [])
    (hf : inp.quoteResp = .success q)
    (hai : inp.aiAnalyze = .failure)
    (hq : hasAllQuoteKeys q = true)
    (hbuf : ∀ it ∈ st.analyzed_stocks, hasKey it.quote (str "c") = true) :
    (∀ sym, analyze_stock_with_openai sym q .failure =
      .ok (str "OpenAI call failed")) ∧
    ∃ r sym, tick symbols interval st inp = .ok r ∧ sym ∈ symbols ∧
      (r.flushed = false →
        r.state.analyzed_stocks = st.analyzed_stocks ++
          [{ symbol := sym, quote := q,
             analysis := str "OpenAI call failed",
             timestamp := inp.tEntry }]) ∧
      (r.flushed = true →
        r.flushEntries = some (st.analyzed_stocks ++
          [{ symbol := sym, quote := q,
             analysis := str "OpenAI call failed",
             timestamp := inp.tEntry }])) := by
  refine ⟨fun sym => analyze_ok sym q .failure hq, ?_⟩
  obtain ⟨sym, hsym, hmem⟩ := randomChoice_mem symbols inp.choiceIdx hs
  have ha : analyze_stock_with_openai sym q inp.aiAnalyze =
      .ok (str "OpenAI call failed") := by
    rw [hai]
    exact analyze_ok sym q .failure hq
  rw [tick_eq_of_success symbols interval st inp sym q
    (str "OpenAI call failed") hsym hf ha]
  set e : AnalyzedEntry :=
    { symbol := sym, quote := q, analysis := str "OpenAI call failed",
      timestamp := inp.tEntry }
  by_cases hcond : inp.tNow - st.last_comparison_time ≥ interval
  · have hcall := compare_ok (st.analyzed_stocks ++ [e]) inp.aiCompare
      (by
        intro it hit
        rcases List.mem_append.mp hit with h1 | h2
        · exact hbuf it h1
        · simp only [List.mem_singleton] at h2
          subst h2
          simp [hasKey, hasAllQuoteKeys, Bool.and_eq_true] at hq ⊢
          exact hq.1.1.1.1.1)
    simp only [hcond, if_pos, if_true]
    rw [hcall]
    exact ⟨_, sym, rfl, hmem, by simp, fun _ => rfl⟩
  · simp only [if_neg hcond]
    exact ⟨_, sym, rfl, hmem, fun _ => rfl, by simp⟩

/-- C4, witness: the amended theorem at a concrete tick whose analysis call
fails. -/
theorem analyze_failure_returns_sentinel_and_still_appends_witness :
    (∀ sym, analyze_stock_with_openai sym qGood .failure =
      .ok (str "OpenAI call failed")) ∧
    ∃ r sym, tick symsA 60 st0 inpAnalyzeFail = .ok r ∧ sym ∈ symsA ∧
      (r.flushed = false →
        r.state.analyzed_stocks = st0.analyzed_stocks ++
          [{ symbol := sym, quote := qGood,
             analysis := str "OpenAI call failed",
             timestamp := inpAnalyzeFail.tEntry }]) ∧
      (r.flushed = true →
        r.flushEntries = some (st0.analyzed_stocks ++
          [{ symbol := sym, quote := qGood,
             analysis := str "OpenAI call failed",
             timestamp := inpAnalyzeFail.tEntry }])) :=
  analyze_failure_returns_sentinel_and_still_appends symsA 60 st0
    inpAnalyzeFail qGood (by decide) (by decide) (by decide) (by decide)
    (by simp [st0])

/-! ## Claim C5 -/

/-- Tick inputs at the boundary whose comparison OpenAI call raises. -/
def inpCompareFail : TickInput :=
  { choiceIdx := 0, quoteResp := .success qGood,
    aiAnalyze := .success (str "looks fine"),
    aiCompare := .failure, tEntry := 60, tNow := 60 }

/-- C5: if the comparison request raises any error, it is caught and the
sentinel failure string "OpenAI summary call failed" becomes the flush
result, and the flush still completes: the buffer is cleared and
`last_comparison_time` is set to the tick's `now`, with no retry. -/
theorem tick_compare_failure_still_flushes (symbols : List PyStr)
    (interval : Int) (st : LoopState) (inp : TickInput) (q : Dict)
    (hs : symbols ≠ [])
    (hf : inp.quoteResp = .success q)
    (hq : hasAllQuoteKeys q = true)
    (hbuf : ∀ it ∈ st.analyzed_stocks, hasKey it.quote (str "c") = true)
    (hcmp : inp.aiCompare = .failure)
    (hcond : inp.tNow - st.last_comparison_time ≥ interval) :
    ∃ r, tick symbols interval st inp = .ok r ∧
      r.flushed = true ∧
      r.flushResult = some (str "OpenAI summary call failed") ∧
      r.state.analyzed_stocks = [] ∧
      r.state.last_comparison_time = inp.tNow := by
  obtain ⟨sym, hsym, -⟩ := randomChoice_mem symbols inp.choiceIdx hs
  have ha := analyze_ok sym q inp.aiAnalyze hq
  set a := (match inp.aiAnalyze with
    | AIOutcome.success text => pyStrip text
    | AIOutcome.failure => str "OpenAI call failed") with hadef
  rw [tick_eq_of_success symbols interval st inp sym q a hsym hf ha]
  set e : AnalyzedEntry :=
    { symbol := sym, quote := q, analysis := a, timestamp := inp.tEntry }
  have hcall : compare_stocks_with_openai (st.analyzed_stocks ++ [e])
      inp.aiCompare = .ok (str "OpenAI summary call failed") := by
    rw [hcmp]
    exact compare_ok (st.analyzed_stocks ++ [e]) .failure
      (by
        intro it hit
        rcases List.mem_append.mp hit with h1 | h2
        · exact hbuf it h1
        · simp only [List.mem_singleton] at h2
          subst h2
          simp [hasKey, hasAllQuoteKeys, Bool.and_eq_true] at hq ⊢
          exact hq.1.1.1.1.1)
  simp only [hcond, if_pos, if_true]
  rw [hcall]
  exact ⟨_, rfl, rfl, rfl, rfl, rfl⟩

/-- C5, witness: the fail-soft flush at a concrete boundary tick whose
comparison call fails. -/
theorem tick_compare_failure_still_flushes_witness :
    ∃ r, tick symsA 60 st0 inpCompareFail = .ok r ∧
      r.flushed = true ∧
      r.flushResult = some (str "OpenAI summary call failed") ∧
      r.state.analyzed_stocks = [] ∧
      r.state.last_comparison_time = inpCompareFail.tNow :=
  tick_compare_failure_still_flushes symsA 60 st0 inpCompareFail qGood
    (by decide) (by decide) (by decide) (by simp [st0]) (by decide)
    (by decide)

/-! ## Claim C6 -/

/-- C6, counterexample part: a successful symbols fetch can return
duplicates (two items both carrying symbol "A") and can return the empty
list (empty JSON array), so the loader guarantees neither non-emptiness nor
pairwise distinctness. -/
theorem get_all_symbols_not_nonempty_distinct :
    get_all_symbols (.success
        [[(str "symbol", str "A")], [(str "symbol", str "A")]]) =
      .ok [str "A", str "A"] ∧
    ¬ List.Nodup [str "A", str "A"] ∧
    get_all_symbols (.success ([] : List Dict)) = .ok ([] : List PyStr) := by
  decide

/-- Key-carrying items of a symbols response correspond one-to-one, in
response order, to the values the comprehension extracts: nothing is
deduplicated, reordered, or dropped. -/
theorem lookup_filter_forall2 (data : List Dict) :
    List.Forall₂
      (fun item s => List.lookup (str "symbol") item = some s)
      (data.filter (fun item => hasKey item (str "symbol")))
      (data.filterMap (fun item => List.lookup (str "symbol") item)) := by
  induction data with
  | nil => exact List.Forall₂.nil
  | cons d ds ih =>
    cases hd : List.lookup (str "symbol") d with
    | none =>
      have hk : hasKey d (str "symbol") = false := by simp [hasKey, hd]
      simpa [List.filter_cons, List.filterMap_cons, hd, hk] using ih
    | some s =>
      have hk : hasKey d (str "symbol") = true := by simp [hasKey, hd]
      simp only [List.filter_cons, List.filterMap_cons, hd, hk, if_true]
      exact List.Forall₂.cons hd ih

/-- C6, amended: when the provider call succeeds, the loader returns
exactly the ordered sequence of "symbol" values of the response items
carrying that key — one output per key-carrying item, in response order,
so empties and duplicates pass through unchanged and no non-emptiness or
distinctness guarantee holds — and every non-success outcome (HTTP status
error, transport error, parse error) propagates as an uncaught exception
at startup. -/
theorem get_all_symbols_spec (data : List Dict) (syms : List PyStr)
    (h : get_all_symbols (.success data) = .ok syms) :
    List.Forall₂
      (fun item s => List.lookup (str "symbol") item = some s)
      (data.filter (fun item => hasKey item (str "symbol"))) syms ∧
    (∀ resp : HttpOutcome (List Dict), (∀ d, resp ≠ .success d) →
      ∃ e, get_all_symbols resp = .error e) := by
  constructor
  · have hsyms :
        syms = data.filterMap (fun item => List.lookup (str "symbol") item) := by
      simpa [get_all_symbols] using h.symm
    rw [hsyms]
    exact lookup_filter_forall2 data
  · intro resp hresp
    cases resp with
    | success d => exact absurd rfl (hresp d)
    | httpError => exact ⟨.httpError, rfl⟩
    | connectionError => exact ⟨.connectionError, rfl⟩
    | jsonError => exact ⟨.jsonError, rfl⟩

/-- C6, witness: the amended loader contract at a concrete response with
one key-carrying item and one keyless item. -/
theorem get_all_symbols_spec_witness :
    List.Forall₂
      (fun item s => List.lookup (str "symbol") item = some s)
      (List.filter (fun item => hasKey item (str "symbol"))
        [[(str "symbol", str "AAPL")], [(str "exchange", str "US")]])
      [str "AAPL"] ∧
    (∀ resp : HttpOutcome (List Dict), (∀ d, resp ≠ .success d) →
      ∃ e, get_all_symbols resp = .error e) :=
  get_all_symbols_spec
    [[(str "symbol", str "AAPL")], [(str "exchange", str "US")]]
    [str "AAPL"] (by decide)

/-! ## Claim C7 -/

/-- C7: the comparison prompt lines correspond one-to-one, in insertion
order, to the buffered entries: the line of an entry is
`entryLineText it c` — "Symbol: ", the entry's symbol, "Price: ", the
quote's value at key "c", and "AI Analysis: " followed by
`truncate_text analysis 200`; and `truncate_text` returns its input
unchanged when the length is at most the budget, otherwise exactly the
first 200 characters followed by "...", so its output length is at most
the budget plus three. -/
theorem comparison_prompt_contents (entries : List AnalyzedEntry)
    (h : ∀ it ∈ entries, hasKey it.quote (str "c") = true) :
    (∃ L, buildPromptList entries = .ok L ∧
      summaryOfStocks entries = .ok (List.intercalate (str "\n") L) ∧
      List.Forall₂
        (fun it line => ∃ c, List.lookup (str "c") it.quote = some c ∧
          line = entryLineText it c)
        entries L) ∧
    (∀ text : PyStr,
      (text.length ≤ 200 → truncate_text text 200 = text) ∧
      (200 < text.length →
        truncate_text text 200 = text.take 200 ++ str "...") ∧
      (truncate_text text 200).length ≤ 200 + 3) := by
  constructor
  · obtain ⟨L, hL, hall⟩ := buildPromptList_ok entries h
    exact ⟨L, hL, by simp [summaryOfStocks, hL, bind, Except.bind], hall⟩
  · intro text
    refine ⟨fun hle => by simp [truncate_text, hle], fun hgt => ?_, ?_⟩
    · simp [truncate_text, Nat.not_le.mpr hgt]
    · by_cases hle : text.length ≤ 200
      · simp only [truncate_text, if_pos hle]
        omega
      · have h3 : (str "...").length = 3 := by decide
        simp only [truncate_text, if_neg hle, List.length_append,
          List.length_take, h3]
        omega

/-- C7, witness: the prompt-content theorem at a concrete one-entry
buffer. -/
theorem comparison_prompt_contents_witness :
    (∃ L, buildPromptList [entryBoundary] = .ok L ∧
      summaryOfStocks [entryBoundary] = .ok (List.intercalate (str "\n") L) ∧
      List.Forall₂
        (fun it line => ∃ c, List.lookup (str "c") it.quote = some c ∧
          line = entryLineText it c)
        [entryBoundary] L) ∧
    (∀ text : PyStr,
      (text.length ≤ 200 → truncate_text text 200 = text) ∧
      (200 < text.length →
        truncate_text text 200 = text.take 200 ++ str "...") ∧
      (truncate_text text 200).length ≤ 200 + 3) :=
  comparison_prompt_contents [entryBoundary] (by decide)

/-! ## Claim C8 -/

/-- Tick inputs whose quote fetch raises a transport-level exception that is
not requests.HTTPError. -/
def inpConnErr : TickInput :=
  { choiceIdx := 0, quoteResp := .connectionError,
    aiAnalyze := .failure, aiCompare := .failure, tEntry := 5, tNow := 5 }

/-- C8: only requests.HTTPError from the quote fetch is handled by the
skip-tick branch; a connection-level transport error or a JSON parse error
raised while fetching the quote propagates out of the loop uncaught. -/
theorem tick_catches_only_httpError (symbols : List PyStr) (interval : Int)
    (st : LoopState) (inp : TickInput)
    (hs : symbols ≠ []) :
    (inp.quoteResp = .httpError →
      tick symbols interval st inp =
        .ok { state := st, flushed := false, flushEntries := none,
              flushResult := none, sleptEarly := true }) ∧
    (inp.quoteResp = .connectionError →
      tick symbols interval st inp = .error .connectionError) ∧
    (inp.quoteResp = .jsonError →
      tick symbols interval st inp = .error .jsonError) := by
  obtain ⟨sym, hsym, -⟩ := randomChoice_mem symbols inp.choiceIdx hs
  refine ⟨fun hf => ?_, fun hf => ?_, fun hf => ?_⟩ <;>
    simp [tick, hsym, hf, get_quote]

/-- C8, witness: the handled/unhandled split at a concrete tick whose fetch
raises a connection error. -/
theorem tick_catches_only_httpError_witness :
    (inpConnErr.quoteResp = .httpError →
      tick symsA 60 st0 inpConnErr =
        .ok { state := st0, flushed := false, flushEntries := none,
              flushResult := none, sleptEarly := true }) ∧
    (inpConnErr.quoteResp = .connectionError →
      tick symsA 60 st0 inpConnErr = .error .connectionError) ∧
    (inpConnErr.quoteResp = .jsonError →
      tick symsA 60 st0 inpConnErr = .error .jsonError) :=
  tick_catches_only_httpError symsA 60 st0 inpConnErr (by decide)

/-! ## Claim C9 -/

/-- Tick inputs whose quote fetch succeeds but returns a quote missing the
key "t". -/
def inpNoT : TickInput :=
  { choiceIdx := 0, quoteResp := .success qNoT,
    aiAnalyze := .success (str "x"), aiCompare := .failure,
    tEntry := 5, tNow := 5 }

/-- C9: for any quote missing one of the six keys c, h, l, o, pc, t, the
analyzer raises a KeyError while building the prompt — before the
error-handling block — for every symbol and every provider outcome, instead
of returning the sentinel string, and that KeyError propagates out of the
poll-loop tick. -/
theorem analyze_missing_key_propagates (symbols : List PyStr)
    (interval : Int) (st : LoopState) (inp : TickInput) (q : Dict)
    (hs : symbols ≠ [])
    (hf : inp.quoteResp = .success q)
    (hq : hasAllQuoteKeys q = false) :
    ∃ k, (∀ sym ai,
        analyze_stock_with_openai sym q ai = .error (.keyError k)) ∧
      tick symbols interval st inp = .error (.keyError k) := by
  obtain ⟨k, hk⟩ := analyze_missingKey q hq
  obtain ⟨sym, hsym, -⟩ := randomChoice_mem symbols inp.choiceIdx hs
  exact ⟨k, hk, by simp [tick, hsym, hf, get_quote, hk sym inp.aiAnalyze]⟩

/-- C9, witness: the KeyError propagation at a concrete quote missing
"t". -/
theorem analyze_missing_key_propagates_witness :
    ∃ k, (∀ sym ai,
        analyze_stock_with_openai sym qNoT ai = .error (.keyError k)) ∧
      tick symsA 60 st0 inpNoT = .error (.keyError k) :=
  analyze_missing_key_propagates symsA 60 st0 inpNoT qNoT
    (by decide) (by decide) (by decide)

/-! ## Claim C10 -/

/-- C10: for every non-empty symbol universe, `random.choice` returns, for
every random draw, an element of that universe; consequently, after a tick
whose quote fetch succeeds, every buffered entry either was already in the
buffer or carries a symbol from the universe (the universe itself being a
read-only input of every tick). -/
theorem tick_selects_from_universe (symbols : List PyStr) (interval : Int)
    (st : LoopState) (inp : TickInput) (q : Dict)
    (hs : symbols ≠ [])
    (hf : inp.quoteResp = .success q)
    (hq : hasAllQuoteKeys q = true)
    (hbuf : ∀ it ∈ st.analyzed_stocks, hasKey it.quote (str "c") = true) :
    (∀ i, ∃ s, randomChoice symbols i = some s ∧ s ∈ symbols) ∧
    ∃ r, tick symbols interval st inp = .ok r ∧
      ∀ e ∈ r.state.analyzed_stocks,
        e ∈ st.analyzed_stocks ∨ e.symbol ∈ symbols := by
  refine ⟨fun i => randomChoice_mem symbols i hs, ?_⟩
  obtain ⟨sym, hsym, hmem⟩ := randomChoice_mem symbols inp.choiceIdx hs
  have ha := analyze_ok sym q inp.aiAnalyze hq
  set a := (match inp.aiAnalyze with
    | AIOutcome.success text => pyStrip text
    | AIOutcome.failure => str "OpenAI call failed") with hadef
  rw [tick_eq_of_success symbols interval st inp sym q a hsym hf ha]
  set e : AnalyzedEntry :=
    { symbol := sym, quote := q, analysis := a, timestamp := inp.tEntry }
  by_cases hcond : inp.tNow - st.last_comparison_time ≥ interval
  · have hcall := compare_ok (st.analyzed_stocks ++ [e]) inp.aiCompare
      (by
        intro it hit
        rcases List.mem_append.mp hit with h1 | h2
        · exact hbuf it h1
        · simp only [List.mem_singleton] at h2
          subst h2
          simp [hasKey, hasAllQuoteKeys, Bool.and_eq_true] at hq ⊢
          exact hq.1.1.1.1.1)
    simp only [hcond, if_pos, if_true]
    rw [hcall]
    exact ⟨_, rfl, by simp⟩
  · simp only [if_neg hcond]
    refine ⟨_, rfl, ?_⟩
    intro x hx
    rcases List.mem_append.mp hx with h1 | h2
    · exact Or.inl h1
    · simp only [List.mem_singleton] at h2
      subst h2
      exact Or.inr hmem

/-- C10, witness: universe membership at a concrete successful tick. -/
theorem tick_selects_from_universe_witness :
    (∀ i, ∃ s, randomChoice symsA i = some s ∧ s ∈ symsA) ∧
    ∃ r, tick symsA 60 st0 inpEarly = .ok r ∧
      ∀ e ∈ r.state.analyzed_stocks,
        e ∈ st0.analyzed_stocks ∨ e.symbol ∈ symsA :=
  tick_selects_from_universe symsA 60 st0 inpEarly qGood
    (by decide) (by decide) (by decide) (by simp [st0])
